import Mathlib

/-!
Verification development for the dataset discovery and compatibility engine of
`ndslice` (`src/ndslice/selectors.py`).

The three selector classes (`H5DatasetSelector`, `NpzDatasetSelector`,
`MatDatasetSelector`) are embedded shallowly:

* numpy dtypes are abstracted into a semantic `ScalarType` tag
  (signed/unsigned integer, float, complex float, or non-numeric);
* array element data is carried as a flat list of complex values
  (`CVal = Int × Int`, real and imaginary part);
* node paths are modelled as lists of name segments.  The Python code joins
  segments with a slash and later splits on a slash; for HDF5 member names and
  MATLAB variable/field names (which cannot contain a slash) the round trip
  `split(join(segs)) = segs` is the identity, so the segment-list model is
  faithful, including the length-based dispatch in `H5DatasetSelector.load_data`
  (`len(path.split('/')) == 2`), which becomes a length test on the segment
  list;
* Python exceptions are modelled with `Except String`, the string naming the
  exception that the corresponding library call raises.

The Qt tree widget built by `_build_tree` is modelled by `TItem`: only the
data that the selectors store on the items (name, displayed shape, displayed
dtype, the `UserRole` path, the `UserRole+1` compatibility flag) and the
group/leaf distinction are kept; fonts, colors and expansion state are pure
presentation and are dropped.
-/

namespace Ndslice

/-- Semantic kind of a numeric numpy dtype (`np.issubdtype(dt, np.number)`
holds exactly for these four families; complex counts as numeric). -/
inductive NumKind where
  | sint
  | uint
  | float
  | cfloat
  deriving DecidableEq, Repr

/-- Semantic classification of a numpy scalar dtype: a numeric kind, or a
non-numeric dtype (strings, objects, cells, ...). -/
inductive ScalarType where
  | num (k : NumKind)
  | nonNum
  deriving DecidableEq, Repr

/-- Embedding of `np.issubdtype(dt, np.number)`. -/
def ScalarType.isNumber : ScalarType → Bool
  | .num _ => true
  | .nonNum => false

/-- Embedding of `np.iscomplexobj` at the dtype level: true exactly for a
complex floating dtype. -/
def ScalarType.isComplexT : ScalarType → Bool
  | .num .cfloat => true
  | _ => false

/-- One array element: a complex value as (real part, imaginary part). A real
element is `(r, 0)`. -/
abbrev CVal := Int × Int

/-- Complex addition on elements. -/
def cAdd (a b : CVal) : CVal := (a.1 + b.1, a.2 + b.2)

/-- Multiplication of an element by the imaginary unit `1j`. -/
def cMulI (a : CVal) : CVal := (-a.2, a.1)

/-- Embedding of the element-wise expression `r + 1j * i` used by
`H5DatasetSelector.load_data` for split real/imaginary compound fields. -/
def cAddMulI (r i : CVal) : CVal := cAdd r (cMulI i)

/-- One item of the selector tree widget, keeping the data the selectors
store on it: the displayed name, displayed shape and dtype columns, the
`UserRole` dataset path, the `UserRole+1` compatibility flag, whether the item
was created by `_add_item` (a selectable leaf, `isLeaf = true`) or by
`_add_group` (a group/struct/compound header, `isLeaf = false`), and its
children.  The path type `π` is `List String` for the H5 and MAT selectors and
`String` for the NPZ selector. -/
inductive TItem (π : Type) where
  | mk (name : String) (shape : List Nat) (dtag : ScalarType) (path : Option π)
      (compatible : Bool) (isLeaf : Bool) (kids : List (TItem π))

variable {π : Type}

/-- Displayed name of a tree item. -/
def TItem.nameOf : TItem π → String
  | .mk n _ _ _ _ _ _ => n

/-- Displayed shape of a tree item. -/
def TItem.shapeOf : TItem π → List Nat
  | .mk _ sh _ _ _ _ _ => sh

/-- Displayed dtype of a tree item. -/
def TItem.tagOf : TItem π → ScalarType
  | .mk _ _ tg _ _ _ _ => tg

/-- Path stored on a tree item (`UserRole` data). -/
def TItem.pathOf : TItem π → Option π
  | .mk _ _ _ p _ _ _ => p

/-- Compatibility flag stored on a tree item (`UserRole+1` data). -/
def TItem.flagOf : TItem π → Bool
  | .mk _ _ _ _ c _ _ => c

mutual
/-- All leaf items (items created by `_add_item`) of a tree item and its
descendants, in tree order. -/
def TItem.leaves : TItem π → List (TItem π)
  | .mk n sh tg p c leaf kids =>
      (if leaf then [.mk n sh tg p c leaf kids] else []) ++ TItem.leavesL kids
/-- All leaf items of a forest, in tree order. -/
def TItem.leavesL : List (TItem π) → List (TItem π)
  | [] => []
  | i :: is => i.leaves ++ TItem.leavesL is
end

/-- Number of leaves of a forest whose compatibility flag is set. -/
def compatLeafCount (ts : List (TItem π)) : Nat :=
  ((TItem.leavesL ts).filter TItem.flagOf).length

/-- Names of the top-level items of a forest. -/
def topNames (ts : List (TItem π)) : List String :=
  ts.map TItem.nameOf

/-- Resolution outcome of `DatasetSelector.view`: either the single compatible
dataset is materialized (`resolved`), or there is no compatible dataset
(`empty`, `view` returns `False`), or several candidates exist and the full
description tree is handed to the GUI (`needsChoice`). -/
inductive Outcome (ν α τ : Type) where
  | resolved (name : ν) (data : α)
  | empty
  | needsChoice (tree : τ)

/-! ## Flat-archive format: `NpzDatasetSelector` -/

/-- One entry of an `.npz` archive: its key, the stored array's shape, dtype
and (flattened) element values. -/
structure NpzEntry where
  key : String
  shape : List Nat
  dtype : ScalarType
  vals : List CVal
  deriving DecidableEq, Repr

/-- An `.npz` file: a flat mapping from key to array, in insertion order. -/
abbrev NpzFile := List NpzEntry

/-- A loaded plain numpy array (shape, dtype, flattened values). -/
structure NpArr where
  shape : List Nat
  dtype : ScalarType
  vals : List CVal
  deriving DecidableEq, Repr

/-- Embedding of `NpzDatasetSelector._find_compatible_datasets`: iterate the
archive keys in order and keep every entry with `arr.ndim >= 1`, recording
`(key, arr.shape, arr.dtype)`.  Note that the dtype is not inspected. -/
def npzFindCompatible (f : NpzFile) : List (String × List Nat × ScalarType) :=
  f.filterMap fun e =>
    if 1 ≤ e.shape.length then some (e.key, e.shape, e.dtype) else none

/-- Embedding of `NpzDatasetSelector.load_data`: `np.asarray(self.npz_file[name])`,
a plain key lookup. -/
def npzLoadData (f : NpzFile) (name : String) : Option NpArr :=
  (f.find? fun e => e.key == name).map fun e => ⟨e.shape, e.dtype, e.vals⟩

/-- Embedding of `NpzDatasetSelector.get_single_data`: if there is exactly one
compatible dataset, load it and return `(name, data)`, else `None`. -/
def npzGetSingleData (f : NpzFile) : Option (String × NpArr) :=
  match npzFindCompatible f with
  | [(n, _, _)] => (npzLoadData f n).map fun a => (n, a)
  | _ => none

/-- Embedding of `NpzDatasetSelector._build_tree`: one flat leaf item per
compatible entry, each marked compatible, with the key as its path. -/
def npzBuildTree (f : NpzFile) : List (TItem String) :=
  (npzFindCompatible f).map fun e =>
    .mk e.1 e.2.1 e.2.2 (some e.1) true true []

/-- Embedding of `DatasetSelector.view` for the NPZ selector: with at most one
compatible dataset, auto-resolve through `get_single_data` (`None` means the
`False`/no-compatible-datasets outcome); with more than one, hand the full
tree to the GUI. -/
def npzView (f : NpzFile) : Outcome String NpArr (List (TItem String)) :=
  if (npzFindCompatible f).length > 1 then
    .needsChoice (npzBuildTree f)
  else
    match npzGetSingleData f with
    | some (n, a) => .resolved n a
    | none => .empty

/-! ## Struct-matrix format: `MatDatasetSelector`

`scipy.io.loadmat` returns a dict from variable name to ndarray; a MATLAB
struct array becomes an ndarray with a structured (named-field) dtype, where
indexing by field name yields an object array of the same shape holding one
value per struct element, and `.item()` extracts the value when — and only
when — that array has exactly one element (otherwise it raises `ValueError`).
`MatVal` models such a value; the per-element field values are kept in
`MatCells` (in the real library the cell count equals the product of the
struct array's shape). -/

mutual
/-- A value in a loaded `.mat` dict: a plain ndarray with shape, dtype and
values, or a struct array with a shape and named fields. -/
inductive MatVal where
  | arr (shape : List Nat) (dtype : ScalarType) (vals : List CVal)
  | structA (shape : List Nat) (fields : MatFields)
/-- Named fields of a struct array, in dtype declaration order; each field
holds one value per struct-array element. -/
inductive MatFields where
  | fnil
  | fcons (name : String) (cells : MatCells) (rest : MatFields)
/-- The per-element values of one struct field. -/
inductive MatCells where
  | cnil
  | ccons (v : MatVal) (rest : MatCells)
end

/-- A loaded `.mat` dict: variable name to value, in definition order. -/
abbrev MatDict := List (String × MatVal)

/-- Embedding of Python `k.startswith('__')`: the first two characters are
underscores. -/
def hasDunder (s : String) : Bool :=
  match s.data with
  | c1 :: c2 :: _ => (c1 == Char.ofNat 95) && (c2 == Char.ofNat 95)
  | _ => false

/-- Embedding of the `__init__` filter
`{k: v for k, v in mat_data.items() if not k.startswith('__')}` dropping
MATLAB metadata entries such as `__header__`. -/
def matMkDict (raw : MatDict) : MatDict :=
  raw.filter fun e => !hasDunder e.1

/-- Lookup of a struct field's cell array (`var[field_name]`). -/
def MatFields.cellsOf : MatFields → String → Option MatCells
  | .fnil, _ => none
  | .fcons n cs rest, f => if n = f then some cs else MatFields.cellsOf rest f

/-- Field names of a struct array's dtype (`var.dtype.names`). -/
def MatFields.names : MatFields → List String
  | .fnil => []
  | .fcons n _ rest => n :: MatFields.names rest

/-- Embedding of `_is_struct`: an ndarray whose dtype has named fields. -/
def matIsStruct : MatVal → Bool
  | .structA _ _ => true
  | .arr _ _ _ => false

/-- Embedding of `_is_numeric_array`: an ndarray with
`np.issubdtype(val.dtype, np.number)` and `val.ndim >= 1`. -/
def matIsNumericArray : MatVal → Bool
  | .arr sh t _ => t.isNumber && 1 ≤ sh.length
  | .structA _ _ => false

/-- Displayed dtype of a `.mat` value: its scalar dtype for a plain array, or
the structured record dtype for a struct array. -/
inductive MatDTag where
  | scalarT (t : ScalarType)
  | structT
  deriving DecidableEq, Repr

/-- Dtype tag of a `.mat` value (`var.dtype`). -/
def MatVal.dtypeTag : MatVal → MatDTag
  | .arr _ t _ => .scalarT t
  | .structA _ _ => .structT

/-- Shape of a `.mat` value (`var.shape`). -/
def MatVal.shapeOf : MatVal → List Nat
  | .arr sh _ _ => sh
  | .structA sh _ => sh

mutual
/-- Embedding of `MatDatasetSelector._has_numeric_data`: a plain array
answers `_is_numeric_array`; a struct array extracts each field value with
`var[field_name].item()` in order and recurses, short-circuiting at the
first `True`.  `.item()` raises `ValueError` when the struct array has more
than one (or zero) elements, which the `Except` layer records. -/
def matHasNumericData : MatVal → Except String Bool
  | .arr sh t _ => .ok ((ScalarType.isNumber t) && 1 ≤ sh.length)
  | .structA _ fs => matHasNumericFields fs
/-- Field loop of `_has_numeric_data`.  The `.item()` extraction succeeds
only on a single-cell field (a single-element struct array). -/
def matHasNumericFields : MatFields → Except String Bool
  | .fnil => .ok false
  | .fcons _ (.ccons v .cnil) rest =>
      match matHasNumericData v with
      | .error e => .error e
      | .ok true => .ok true
      | .ok false => matHasNumericFields rest
  | .fcons _ .cnil _ =>
      .error "ValueError: can only convert an array of size 1 to a Python scalar"
  | .fcons _ (.ccons _ (.ccons _ _)) _ =>
      .error "ValueError: can only convert an array of size 1 to a Python scalar"
end

/-- Embedding of `MatDatasetSelector._find_compatible_datasets`: every dict
entry whose value has numeric data anywhere inside it contributes
`(key, var.shape, var.dtype)`, in dict order.  A `.item()` failure inside
`_has_numeric_data` aborts the whole discovery (the selector constructor
raises). -/
def matFindCompatible : MatDict → Except String (List (String × List Nat × MatDTag))
  | [] => .ok []
  | (k, v) :: rest =>
      match matHasNumericData v with
      | .error e => .error e
      | .ok b =>
          match matFindCompatible rest with
          | .error e => .error e
          | .ok tl => .ok (if b then (k, v.shapeOf, v.dtypeTag) :: tl else tl)

/-- Embedding of `np.squeeze`: drop every axis of length 1. -/
def matSqueeze : MatVal → MatVal
  | .arr sh t vs => .arr (sh.filter fun d => d ≠ 1) t vs
  | .structA sh fs => .structA (sh.filter fun d => d ≠ 1) fs

/-- Embedding of `np.atleast_1d`: give a 0-d array shape `[1]`. -/
def matAtleast1d : MatVal → MatVal
  | .arr [] t vs => .arr [1] t vs
  | .structA [] fs => .structA [1] fs
  | v => v

/-- Embedding of `MatDatasetSelector.get_single_data`: auto-resolve only when
the dict holds exactly one variable and exactly one variable is a plain
numeric array; the squeezed value is returned.  Note the condition is on the
dict, not on the compatible-sequence. -/
def matGetSingleData (d : MatDict) : Option (String × MatVal) :=
  match d.filter (fun e => matIsNumericArray e.2), d with
  | [(k, v)], [_] => some (k, matSqueeze v)
  | _, _ => none

/-- Embedding of the field-navigation loop of `MatDatasetSelector.load_data`:
`data = data[field_name].item()` for each remaining path segment.  A plain
array has no named fields, so indexing it by a field name raises; a missing
field name raises; `.item()` on a non-single-element cell array raises. -/
def matNavigate : MatVal → List String → Except String MatVal
  | v, [] => .ok v
  | .arr _ _ _, _ :: _ => .error "IndexError: field access on a plain ndarray"
  | .structA _ fs, f :: rest =>
      match MatFields.cellsOf fs f with
      | none => .error "KeyError: no field of this name"
      | some (.ccons v .cnil) => matNavigate v rest
      | some _ => .error "ValueError: can only convert an array of size 1 to a Python scalar"

/-- Embedding of `MatDatasetSelector.load_data`: split the path, look the head
up in the dict, navigate the struct hierarchy one segment at a time, and
return the result squeezed and made at least 1-d. -/
def matLoadData (d : MatDict) (path : List String) : Except String MatVal :=
  match path with
  | [] => .error "KeyError: empty path"
  | k :: rest =>
      match d.find? (fun e => e.1 == k) with
      | none => .error "KeyError: variable not found"
      | some (_, v) =>
          match matNavigate v rest with
          | .error e => .error e
          | .ok r => .ok (matAtleast1d (matSqueeze r))

/-- Lexicographic code-point order on character lists — the order Python
`sorted` applies to strings. -/
def lexLe : List Char → List Char → Bool
  | [], _ => true
  | _ :: _, [] => false
  | a :: as, b :: bs =>
      if a.toNat < b.toNat then true
      else if b.toNat < a.toNat then false
      else lexLe as bs

/-- Sorting of variable names used by `MatDatasetSelector._build_tree`
(`sorted(self.mat_dict.keys())`): an insertion sort by the lexicographic
string order, matching Python `sorted` on distinct keys. -/
def insertSorted (k : String) : List String → List String
  | [] => [k]
  | x :: xs => if lexLe k.data x.data then k :: x :: xs else x :: insertSorted k xs

/-- Sort a list of names lexicographically. -/
def sortNames : List String → List String
  | [] => []
  | x :: xs => insertSorted x (sortNames xs)

mutual
/-- Embedding of `MatDatasetSelector._add_field`: a struct field becomes a
group item (path `None`) with its own fields as children; a numeric-array
field becomes a compatible leaf carrying its path; any other field becomes an
incompatible leaf with path `None`.  Returns the (zero or one) created items;
`.item()` failures propagate. -/
def matAddField (fieldName : String) (v : MatVal) (fieldPath : List String) :
    Except String (List (TItem (List String))) :=
  match v with
  | .structA _ fs =>
      match matAddFieldsOf fieldPath fs with
      | .error e => .error e
      | .ok kids => .ok [.mk fieldName [] .nonNum none false false kids]
  | .arr sh t _ =>
      if ScalarType.isNumber t && 1 ≤ sh.length then
        .ok [.mk fieldName sh t (some fieldPath) true true []]
      else
        .ok [.mk fieldName sh t none false true []]
/-- Field loop shared by `_add_variable` and `_add_field`: extract each field
value with `.item()` and add it under the parent, extending the path by the
field name. -/
def matAddFieldsOf (basePath : List String) : MatFields →
    Except String (List (TItem (List String)))
  | .fnil => .ok []
  | .fcons fn (.ccons v .cnil) rest =>
      match matAddField fn v (basePath ++ [fn]) with
      | .error e => .error e
      | .ok is =>
          match matAddFieldsOf basePath rest with
          | .error e => .error e
          | .ok tl => .ok (is ++ tl)
  | .fcons _ .cnil _ =>
      .error "ValueError: can only convert an array of size 1 to a Python scalar"
  | .fcons _ (.ccons _ (.ccons _ _)) _ =>
      .error "ValueError: can only convert an array of size 1 to a Python scalar"
end

/-- Embedding of `MatDatasetSelector._add_variable`: a struct variable becomes
a group item with its fields as children; a plain numeric array becomes a
compatible leaf; any other variable is dropped from the tree. -/
def matAddVariable (name : String) (v : MatVal) :
    Except String (List (TItem (List String))) :=
  match v with
  | .structA _ fs =>
      match matAddFieldsOf [name] fs with
      | .error e => .error e
      | .ok kids => .ok [.mk name [] .nonNum none false false kids]
  | .arr sh t vs =>
      if matIsNumericArray (.arr sh t vs) then
        .ok [.mk name sh t (some [name]) true true []]
      else
        .ok []

/-- Embedding of `MatDatasetSelector._build_tree`: add the variables in
sorted-name order. -/
def matBuildTreeKeys (d : MatDict) : List String →
    Except String (List (TItem (List String)))
  | [] => .ok []
  | k :: ks =>
      match d.find? (fun e => e.1 == k) with
      | none => matBuildTreeKeys d ks
      | some (_, v) =>
          match matAddVariable k v with
          | .error e => .error e
          | .ok is =>
              match matBuildTreeKeys d ks with
              | .error e => .error e
              | .ok tl => .ok (is ++ tl)

/-- Full tree build for the MAT selector, iterating the sorted keys. -/
def matBuildTree (d : MatDict) : Except String (List (TItem (List String))) :=
  matBuildTreeKeys d (sortNames (d.map Prod.fst))

/-- Embedding of `DatasetSelector.view` for the MAT selector.  The compatible
list is computed in the constructor (failures there surface before any
resolution); with more than one entry the tree is built for the GUI
(`.item()` failures during the build also surface); otherwise
`get_single_data` decides between `resolved` and `empty`. -/
def matView (d : MatDict) :
    Except String (Outcome String MatVal (List (TItem (List String)))) :=
  match matFindCompatible d with
  | .error e => .error e
  | .ok compat =>
      if compat.length > 1 then
        match matBuildTree d with
        | .error e => .error e
        | .ok t => .ok (.needsChoice t)
      else
        match matGetSingleData d with
        | some (n, v) => .ok (.resolved n v)
        | none => .ok .empty

/-! ## Hierarchical-group format: `H5DatasetSelector`

An HDF5 file is a tree of groups and datasets.  A dataset carries a shape and
either a plain dtype with its element values, or a compound dtype with named
fields; each compound field either is a scalar field or carries a sub-array
dtype `(base, subshape)` (`field_dtype.subdtype`).  The per-field column of
values (`dset[field_name]`, one row per dataset element, flattened) is kept
with the field. -/

/-- Dtype of one compound field: a scalar dtype, or a sub-array dtype with a
base dtype and a sub-shape (`field_dtype.subdtype`). -/
inductive FieldType where
  | scalar (t : ScalarType)
  | subarray (base : ScalarType) (sub : List Nat)
  deriving DecidableEq, Repr

/-- One named field of a compound dataset: its name, dtype, and column of
values (`dset[field_name]`, flattened). -/
structure CField where
  name : String
  ftype : FieldType
  col : List CVal
  deriving DecidableEq, Repr

mutual
/-- An HDF5 object: a plain dataset (shape, dtype, flattened values), a
compound dataset (shape, named fields), or a group. -/
inductive H5Obj where
  | plainDs (shape : List Nat) (dtype : ScalarType) (vals : List CVal)
  | compDs (shape : List Nat) (fields : List CField)
  | group (members : H5Members)
/-- Ordered named members of a group (the file's iteration order, which h5py
reports alphabetically). -/
inductive H5Members where
  | nil
  | cons (key : String) (obj : H5Obj) (rest : H5Members)
end

/-- Keys of a member list. -/
def H5Members.keys : H5Members → List String
  | .nil => []
  | .cons k _ rest => k :: H5Members.keys rest

/-- Lookup of a member by name. -/
def H5Members.get? : H5Members → String → Option H5Obj
  | .nil, _ => none
  | .cons k o rest, n => if k = n then some o else H5Members.get? rest n

/-- Embedding of `H5DatasetSelector._get_compound_field_info`: for a sub-array
field, the sub-shape, base dtype, and whether it is a numeric array of rank
at least 1; for a scalar field, the displayed shape `(1,)`, the field dtype,
and `is_array = False`. -/
def fieldInfo : FieldType → List Nat × ScalarType × Bool
  | .subarray base sub => (sub, base, (1 ≤ sub.length) && base.isNumber)
  | .scalar t => ([1], t, false)

/-- Compatible-sequence contribution of a single visited object, the body of
`visit_func` in `H5DatasetSelector._find_compatible_datasets`: a dataset of
rank at least 1 contributes its numeric-array compound fields (as
`(path ++ [field], subshape)`), or — when plain and numeric — itself as
`(path, shape)`; groups and rank-0 datasets contribute nothing. -/
def h5DatasetEntries (path : List String) : H5Obj → List (List String × List Nat)
  | .plainDs sh t _ =>
      if 1 ≤ sh.length then
        if t.isNumber then [(path, sh)] else []
      else []
  | .compDs sh fields =>
      if 1 ≤ sh.length then
        fields.filterMap fun f =>
          let i := fieldInfo f.ftype
          if i.2.2 then some (path ++ [f.name], i.1) else none
      else []
  | .group _ => []

mutual
/-- Recursive walk of `h5_file.visititems(visit_func)` below a prefix: each
member is visited in order, then groups are entered. -/
def h5FindAux (pre : List String) : H5Members → List (List String × List Nat)
  | .nil => []
  | .cons k o rest =>
      h5FindObj (pre ++ [k]) o ++ h5FindAux pre rest
/-- Visit of one object: its own contribution, then its children when it is a
group. -/
def h5FindObj (path : List String) : H5Obj → List (List String × List Nat)
  | .plainDs sh t vs => h5DatasetEntries path (.plainDs sh t vs)
  | .compDs sh fs => h5DatasetEntries path (.compDs sh fs)
  | .group ms => h5FindAux path ms
end

/-- Embedding of `H5DatasetSelector._find_compatible_datasets`: the
compatible `(path, shape)` sequence of the whole file, in visit order. -/
def h5FindCompatible (ms : H5Members) : List (List String × List Nat) :=
  h5FindAux [] ms

/-- Embedding of the h5py path lookup `self.h5_file[path]` for a multi-segment
path: descend through groups segment by segment; a missing name or a
non-group intermediate raises `KeyError`. -/
def h5Resolve : H5Members → List String → Except String H5Obj
  | _, [] => .error "KeyError: empty path"
  | ms, [k] =>
      match ms.get? k with
      | some o => .ok o
      | none => .error "KeyError: name not found"
  | ms, k :: rest =>
      match ms.get? k with
      | some (.group cs) => h5Resolve cs rest
      | some _ => .error "KeyError: cannot descend into a dataset"
      | none => .error "KeyError: name not found"

/-- Column of a named compound field (`dset[field_name]`); defaults to an
empty column when the field is absent (only used under a presence guard). -/
def fieldCol (fields : List CField) (n : String) : List CVal :=
  ((fields.find? fun f => f.name == n).map CField.col).getD []

/-- Dtype of a named compound field; defaults to a non-numeric scalar. -/
def fieldTypeOf (fields : List CField) (n : String) : FieldType :=
  ((fields.find? fun f => f.name == n).map CField.ftype).getD (.scalar .nonNum)

/-- Data shape contributed by a field below the dataset shape: the sub-array
sub-shape, or nothing for a scalar field. -/
def FieldType.dataShape : FieldType → List Nat
  | .subarray _ sub => sub
  | .scalar _ => []

/-- Base dtype of a field's data. -/
def FieldType.dataBase : FieldType → ScalarType
  | .subarray base _ => base
  | .scalar t => t

/-- A materialized array: a plain (possibly complex) numpy array, or a raw
structured (compound) array returned unmodified. -/
inductive Loaded where
  | arr (shape : List Nat) (dtype : ScalarType) (vals : List CVal)
  | raw (shape : List Nat) (fields : List CField)
  deriving DecidableEq, Repr

/-- First name of a preference list present among `names`
(`next((n for n in prefs if n in names), None)`). -/
def firstPresent (prefs names : List String) : Option String :=
  prefs.find? fun n => names.contains n

/-- Regular-dataset branch of `H5DatasetSelector.load_data` (from
`dset = self.h5_file[path]` on): resolve the full path; a natively complex
dataset is returned as-is; a compound dataset is searched for the first
present real-part name in `['real', 'realdata', 'r']` and imaginary-part name
in `['imag', 'imagdata', 'i']` — both found yields `real + 1j*imag`
element-wise, only a real one yields that field as a plain array, neither
yields the raw compound data; any other dataset is returned as-is.
`np.asarray` on a group raises. -/
def h5LoadRegular (ms : H5Members) (path : List String) : Except String Loaded :=
  match h5Resolve ms path with
  | .error e => .error e
  | .ok (.group _) => .error "TypeError: cannot read a group as an array"
  | .ok (.plainDs sh t vs) =>
      if t.isComplexT then .ok (.arr sh t vs) else .ok (.arr sh t vs)
  | .ok (.compDs sh fields) =>
      let names := fields.map CField.name
      match firstPresent ["real", "realdata", "r"] names,
            firstPresent ["imag", "imagdata", "i"] names with
      | some r, some i =>
          let ft := fieldTypeOf fields r
          .ok (.arr (sh ++ ft.dataShape) (.num .cfloat)
                (List.zipWith cAddMulI (fieldCol fields r) (fieldCol fields i)))
      | some r, none =>
          let ft := fieldTypeOf fields r
          .ok (.arr (sh ++ ft.dataShape) ft.dataBase (fieldCol fields r))
      | none, _ => .ok (.raw sh fields)

/-- Embedding of `H5DatasetSelector.load_data`.  A path of exactly two
segments is first tried as `dataset/field`: the head is looked up at the
root; accessing `.dtype` on a group raises `AttributeError`; when the head is
a compound dataset containing the field, the field column is extracted
(dropping the dataset dimension when the dataset shape is `(1,)`); otherwise
the code falls through to the regular-dataset branch on the full path. -/
def h5LoadData (ms : H5Members) (path : List String) : Except String Loaded :=
  match path with
  | [dsName, fieldName] =>
      match ms.get? dsName with
      | none => .error "KeyError: name not found"
      | some (.group _) => .error "AttributeError: a group has no dtype"
      | some (.plainDs _ _ _) => h5LoadRegular ms path
      | some (.compDs sh fields) =>
          if (fields.map CField.name).contains fieldName then
            let ft := fieldTypeOf fields fieldName
            if sh = [1] then
              .ok (.arr ft.dataShape ft.dataBase (fieldCol fields fieldName))
            else
              .ok (.arr (sh ++ ft.dataShape) ft.dataBase (fieldCol fields fieldName))
          else h5LoadRegular ms path
  | _ => h5LoadRegular ms path

/-- Embedding of `H5DatasetSelector.get_single_data`: with exactly one entry
in the compatible-sequence, load its path and return `(path, data)`; the load
may raise. -/
def h5GetSingleData (ms : H5Members) :
    Except String (Option (List String × Loaded)) :=
  match h5FindCompatible ms with
  | [(p, _)] =>
      match h5LoadData ms p with
      | .ok d => .ok (some (p, d))
      | .error e => .error e
  | _ => .ok none

mutual
/-- Embedding of the `add_items` recursion in `H5DatasetSelector._build_tree`
for one member: a group becomes a group item with its members below it; a
compound dataset becomes a group item (`"Compound"`) whose children are one
leaf per field, displayed with `_get_compound_field_info` shape/dtype,
flagged compatible exactly when the field path is in `compatible_paths`; a
plain dataset becomes a leaf flagged compatible exactly when its path is in
`compatible_paths`. -/
def h5BuildObj (S : List (List String)) (key : String) (path : List String) :
    H5Obj → TItem (List String)
  | .group cs => .mk key [] .nonNum (some path) false false (h5BuildMembers S path cs)
  | .compDs _ fields =>
      .mk key [] .nonNum (some path) false false
        (fields.map fun f =>
          let i := fieldInfo f.ftype
          let fp := path ++ [f.name]
          .mk f.name i.1 i.2.1 (some fp) (decide (fp ∈ S)) true [])
  | .plainDs sh t _ => .mk key sh t (some path) (decide (path ∈ S)) true []
/-- Member loop of `add_items`. -/
def h5BuildMembers (S : List (List String)) (pre : List String) :
    H5Members → List (TItem (List String))
  | .nil => []
  | .cons k o rest => h5BuildObj S k (pre ++ [k]) o :: h5BuildMembers S pre rest
end

/-- Embedding of `H5DatasetSelector._build_tree`, with `compatible_paths` the
path set of the compatible-sequence. -/
def h5BuildTree (ms : H5Members) : List (TItem (List String)) :=
  h5BuildMembers ((h5FindCompatible ms).map Prod.fst) [] ms

/-- Embedding of `DatasetSelector.view` for the H5 selector. -/
def h5View (ms : H5Members) :
    Except String (Outcome (List String) Loaded (List (TItem (List String)))) :=
  if (h5FindCompatible ms).length > 1 then
    .ok (.needsChoice (h5BuildTree ms))
  else
    match h5GetSingleData ms with
    | .ok (some (n, d)) => .ok (.resolved n d)
    | .ok none => .ok .empty
    | .error e => .error e

mutual
/-- Well-formedness of an HDF5 object as h5py can actually produce it: sibling
member names are distinct within every group, and field names are distinct
within every compound dtype. -/
def H5Obj.wf : H5Obj → Bool
  | .plainDs _ _ _ => true
  | .compDs _ fields => decide (fields.map CField.name).Nodup
  | .group ms => H5Members.wf ms
/-- Well-formedness of a member list. -/
def H5Members.wf : H5Members → Bool
  | .nil => true
  | .cons k o rest =>
      !(H5Members.keys rest).contains k && H5Obj.wf o && H5Members.wf rest
end

/-! ## Characterization of H5 discovery

`h5CandMembers` enumerates, in visit order, every candidate leaf the walk
considers — plain datasets and compound fields — together with its displayed
shape and the compatibility predicate the code applies to it (rank of the
dataset at least 1, and numeric dtype, respectively numeric sub-array field).
Discovery keeps exactly the candidates whose predicate holds, and the tree
build flags exactly those leaves. -/

mutual
/-- Candidate leaves of one object with their compatibility predicate. -/
def h5CandObj (path : List String) : H5Obj → List (List String × List Nat × Bool)
  | .plainDs sh t _ => [(path, sh, decide (1 ≤ sh.length) && t.isNumber)]
  | .compDs sh fields =>
      fields.map fun f =>
        let i := fieldInfo f.ftype
        (path ++ [f.name], i.1, decide (1 ≤ sh.length) && i.2.2)
  | .group ms => h5CandMembers path ms
/-- Candidate leaves of a member list. -/
def h5CandMembers (pre : List String) : H5Members → List (List String × List Nat × Bool)
  | .nil => []
  | .cons k o rest => h5CandObj (pre ++ [k]) o ++ h5CandMembers pre rest
end

/-- Leaf items of a forest with the path and compatibility flag each one
carries. -/
def leafPathFlags (ts : List (TItem π)) : List (Option π × Bool) :=
  (TItem.leavesL ts).map fun i => (i.pathOf, i.flagOf)

theorem compEntries_eq_filter (path : List String) (sh : List Nat)
    (fields : List CField) :
    (if 1 ≤ sh.length then
        fields.filterMap (fun f =>
          let i := fieldInfo f.ftype
          if i.2.2 then some (path ++ [f.name], i.1) else none)
      else []) =
      ((fields.map fun f =>
          let i := fieldInfo f.ftype
          (path ++ [f.name], i.1, decide (1 ≤ sh.length) && i.2.2)).filter
            (fun c => c.2.2)).map (fun c => (c.1, c.2.1)) := by
  by_cases h : 1 ≤ sh.length
  · have hd : decide (1 ≤ sh.length) = true := decide_eq_true h
    simp only [if_pos h, hd, Bool.true_and]
    induction fields with
    | nil => simp
    | cons f fs ih =>
        cases hf : (fieldInfo f.ftype).2.2 <;>
          simp_all [List.filterMap_cons, List.filter_cons]
  · have hd : decide (1 ≤ sh.length) = false := decide_eq_false h
    simp only [if_neg h, hd, Bool.false_and]
    induction fields with
    | nil => simp
    | cons f fs ih => simp_all [List.filter_cons]

mutual
/-- Discovery for one object keeps exactly the candidates whose predicate
holds. -/
theorem h5FindObj_eq_filter (path : List String) (o : H5Obj) :
    h5FindObj path o =
      ((h5CandObj path o).filter (fun c => c.2.2)).map (fun c => (c.1, c.2.1)) :=
  match o with
  | .plainDs sh t vs => by
      by_cases h : 1 ≤ sh.length <;> cases ht : t.isNumber <;>
        simp [h5FindObj, h5DatasetEntries, h5CandObj, h, ht, List.filter_cons]
  | .compDs sh fields => by
      have := compEntries_eq_filter path sh fields
      simpa [h5FindObj, h5DatasetEntries, h5CandObj] using this
  | .group ms => by
      simpa [h5FindObj, h5CandObj] using h5FindAux_eq_filter path ms
/-- Discovery for a member list keeps exactly the candidates whose predicate
holds. -/
theorem h5FindAux_eq_filter (pre : List String) (ms : H5Members) :
    h5FindAux pre ms =
      ((h5CandMembers pre ms).filter (fun c => c.2.2)).map (fun c => (c.1, c.2.1)) :=
  match ms with
  | .nil => by simp [h5FindAux, h5CandMembers]
  | .cons k o rest => by
      have h1 := h5FindObj_eq_filter (pre ++ [k]) o
      have h2 := h5FindAux_eq_filter pre rest
      simp [h5FindAux, h5CandMembers, h1, h2, List.filter_append]
end

mutual
/-- Candidate paths of a well-formed object are pairwise distinct and all
extend the object's own path. -/
theorem h5CandObj_paths (path : List String) (o : H5Obj) (hwf : o.wf = true) :
    ((h5CandObj path o).map (fun c => c.1)).Nodup ∧
      ∀ p ∈ (h5CandObj path o).map (fun c => c.1), ∃ r, p = path ++ r :=
  match o with
  | .plainDs sh t vs => by
      refine ⟨by simp [h5CandObj], ?_⟩
      intro p hp
      simp [h5CandObj] at hp
      exact ⟨[], by simp [hp]⟩
  | .compDs sh fields => by
      have hnd : (fields.map CField.name).Nodup :=
        of_decide_eq_true (by simpa [H5Obj.wf] using hwf)
      constructor
      · have hrw : (h5CandObj path (.compDs sh fields)).map (fun c => c.1)
            = (fields.map CField.name).map (fun n => path ++ [n]) := by
          simp [h5CandObj, List.map_map]
        rw [hrw]
        refine hnd.map ?_
        intro a b hab
        have := List.append_cancel_left hab
        simpa using this
      · intro p hp
        simp [h5CandObj] at hp
        obtain ⟨f, _, hf⟩ := hp
        exact ⟨[f.name], hf.symm⟩
  | .group ms => by
      have h := h5CandMembers_paths path ms (by simpa [H5Obj.wf] using hwf)
      refine ⟨by simpa [h5CandObj] using h.1, ?_⟩
      intro p hp
      obtain ⟨k, r, _, hkr⟩ := h.2 p (by simpa [h5CandObj] using hp)
      exact ⟨k :: r, hkr⟩
/-- Candidate paths of a well-formed member list are pairwise distinct and
each starts with the prefix followed by a member key. -/
theorem h5CandMembers_paths (pre : List String) (ms : H5Members)
    (hwf : H5Members.wf ms = true) :
    ((h5CandMembers pre ms).map (fun c => c.1)).Nodup ∧
      ∀ p ∈ (h5CandMembers pre ms).map (fun c => c.1),
        ∃ k r, k ∈ ms.keys ∧ p = pre ++ k :: r :=
  match ms with
  | .nil => by simp [h5CandMembers]
  | .cons k o rest => by
      have hw : (H5Members.keys rest).contains k = false
          ∧ H5Obj.wf o = true ∧ H5Members.wf rest = true := by
        have := hwf
        simp only [H5Members.wf, Bool.and_eq_true, Bool.not_eq_true'] at this
        exact ⟨this.1.1, this.1.2, this.2⟩
      have hkmem : k ∉ H5Members.keys rest := by
        have := hw.1
        simp at this
        exact this
      have h1 := h5CandObj_paths (pre ++ [k]) o hw.2.1
      have h2 := h5CandMembers_paths pre rest hw.2.2
      constructor
      · rw [h5CandMembers, List.map_append, List.nodup_append]
        refine ⟨h1.1, h2.1, ?_⟩
        intro p hp1 hp2
        obtain ⟨r, hr⟩ := h1.2 p hp1
        obtain ⟨k2, r2, hk2, hr2⟩ := h2.2 p hp2
        rw [hr2] at hr
        have hco : pre ++ (k :: r) = pre ++ (k2 :: r2) := by
          simpa [List.append_assoc] using hr.symm
        have : k :: r = k2 :: r2 := List.append_cancel_left hco
        exact hkmem (by simpa [← List.cons.injEq k r k2 r2 |>.mp this |>.1] using hk2)
      · intro p hp
        rw [h5CandMembers, List.map_append] at hp
        rcases List.mem_append.mp hp with hp1 | hp2
        · obtain ⟨r, hr⟩ := h1.2 p hp1
          exact ⟨k, r, by simp [H5Members.keys], by simpa [List.append_assoc] using hr⟩
        · obtain ⟨k2, r2, hk2, hr2⟩ := h2.2 p hp2
          exact ⟨k2, r2, by simp [H5Members.keys, hk2], hr2⟩
end

/-- In a well-formed file, a candidate's path occurs among the discovered
compatible paths exactly when its compatibility predicate holds. -/
theorem h5Cand_mem_find_iff (ms : H5Members) (hwf : H5Members.wf ms = true)
    (c : List String × List Nat × Bool) (hc : c ∈ h5CandMembers [] ms) :
    c.1 ∈ (h5FindCompatible ms).map Prod.fst ↔ c.2.2 = true := by
  have hfind : (h5FindCompatible ms).map Prod.fst
      = ((h5CandMembers [] ms).filter (fun c => c.2.2)).map (fun c => c.1) := by
    rw [h5FindCompatible, h5FindAux_eq_filter, List.map_map]
    rfl
  constructor
  · intro hp
    rw [hfind] at hp
    obtain ⟨c2, hc2, hpc⟩ := List.mem_map.mp hp
    have hmem := List.mem_of_mem_filter hc2
    have hpred := (List.mem_filter.mp hc2).2
    have hnd := (h5CandMembers_paths [] ms hwf).1
    have heq : c2 = c := List.inj_on_of_nodup_map hnd hmem hc hpc
    rw [heq] at hpred
    simpa using hpred
  · intro hp
    rw [hfind]
    exact List.mem_map.mpr ⟨c, List.mem_filter.mpr ⟨hc, by simpa using hp⟩, rfl⟩

mutual
/-- The leaf items produced by the tree build for one object carry exactly
the candidate paths, flagged by membership in the path set `S`. -/
theorem h5BuildObj_leaves (S : List (List String)) (k : String)
    (path : List String) (o : H5Obj) :
    (TItem.leaves (h5BuildObj S k path o)).map (fun i => (i.pathOf, i.flagOf))
      = (h5CandObj path o).map (fun c => (some c.1, decide (c.1 ∈ S))) :=
  match o with
  | .plainDs sh t vs => by
      simp [h5BuildObj, h5CandObj, TItem.leaves, TItem.leavesL, TItem.pathOf,
        TItem.flagOf]
  | .compDs sh fields => by
      simp only [h5BuildObj, h5CandObj, TItem.leaves]
      induction fields with
      | nil => simp [TItem.leavesL]
      | cons f fs ih =>
          simpa [TItem.leavesL, TItem.leaves, TItem.pathOf, TItem.flagOf]
            using ih
  | .group cs => by
      simpa [h5BuildObj, h5CandObj, TItem.leaves]
        using h5BuildMembers_leaves S path cs
/-- The leaf items produced by the tree build for a member list carry exactly
the candidate paths, flagged by membership in the path set `S`. -/
theorem h5BuildMembers_leaves (S : List (List String)) (pre : List String)
    (ms : H5Members) :
    (TItem.leavesL (h5BuildMembers S pre ms)).map (fun i => (i.pathOf, i.flagOf))
      = (h5CandMembers pre ms).map (fun c => (some c.1, decide (c.1 ∈ S))) :=
  match ms with
  | .nil => by simp [h5BuildMembers, h5CandMembers, TItem.leavesL]
  | .cons k o rest => by
      have h1 := h5BuildObj_leaves S k (pre ++ [k]) o
      have h2 := h5BuildMembers_leaves S pre rest
      simp [h5BuildMembers, h5CandMembers, TItem.leavesL, h1, h2]
end

/-- In a well-formed file, every leaf of the built tree carries its candidate
path and is flagged compatible exactly when the code's compatibility
predicate holds for it. -/
theorem h5_leafFlags (ms : H5Members) (hwf : H5Members.wf ms = true) :
    leafPathFlags (h5BuildTree ms)
      = (h5CandMembers [] ms).map (fun c => (some c.1, c.2.2)) := by
  unfold leafPathFlags h5BuildTree
  rw [h5BuildMembers_leaves]
  apply List.map_congr_left
  intro c hc
  have hiff := h5Cand_mem_find_iff ms hwf c hc
  cases hb : c.2.2 with
  | true =>
      have : c.1 ∈ (h5FindCompatible ms).map Prod.fst := hiff.mpr hb
      simp [this]
  | false =>
      have : c.1 ∉ (h5FindCompatible ms).map Prod.fst := by
        intro hmem
        rw [hiff.mp hmem] at hb
        cases hb
      simp [this]

/-- In a well-formed file, the number of compatible-flagged leaves of the
built tree equals the length of the compatible-sequence. -/
theorem h5_compatLeafCount (ms : H5Members) (hwf : H5Members.wf ms = true) :
    compatLeafCount (h5BuildTree ms) = (h5FindCompatible ms).length := by
  unfold compatLeafCount
  rw [← List.countP_eq_length_filter]
  have hmap : (TItem.leavesL (h5BuildTree ms)).countP TItem.flagOf
      = (leafPathFlags (h5BuildTree ms)).countP (fun x => x.2) := by
    unfold leafPathFlags
    rw [List.countP_map]
    rfl
  rw [hmap, h5_leafFlags ms hwf, List.countP_map]
  have hlen : (h5FindCompatible ms).length
      = ((h5CandMembers [] ms).filter (fun c => c.2.2)).length := by
    rw [h5FindCompatible, h5FindAux_eq_filter, List.length_map]
  rw [hlen, ← List.countP_eq_length_filter]
  rfl

/-! ## Support lemmas for the MAT and NPZ selectors -/

/-- Membership in the leaves of an appended forest splits into the parts. -/
theorem leavesL_append_mem (i : TItem π) (l1 l2 : List (TItem π))
    (h : i ∈ TItem.leavesL (l1 ++ l2)) :
    i ∈ TItem.leavesL l1 ∨ i ∈ TItem.leavesL l2 := by
  induction l1 with
  | nil => exact Or.inr (by simpa [TItem.leavesL] using h)
  | cons a as ih =>
      simp only [List.cons_append, TItem.leavesL, List.mem_append] at h
      rcases h with h | h
      · exact Or.inl (by simp [TItem.leavesL, List.mem_append, h])
      · rcases ih h with h2 | h2
        · exact Or.inl (by simp [TItem.leavesL, List.mem_append, h2])
        · exact Or.inr h2

mutual
/-- Every leaf the MAT tree build creates for a field is flagged compatible
exactly when its displayed dtype is numeric and its displayed rank is at
least 1. -/
theorem matAddField_leafFlag (fn : String) (v : MatVal) (p : List String)
    (l : List (TItem (List String))) (h : matAddField fn v p = .ok l) :
    ∀ i ∈ TItem.leavesL l,
      i.flagOf = (ScalarType.isNumber i.tagOf && decide (1 ≤ i.shapeOf.length)) :=
  match v with
  | .structA sh fs => by
      intro i hi
      cases hk : matAddFieldsOf p fs with
      | error e => rw [matAddField, hk] at h; cases h
      | ok kids =>
          rw [matAddField, hk] at h
          cases h
          simp only [TItem.leavesL, TItem.leaves, Bool.false_eq_true, if_false,
            List.nil_append, List.append_nil] at hi
          exact matAddFieldsOf_leafFlag p fs kids hk i hi
  | .arr sh t vs => by
      intro i hi
      rw [matAddField] at h
      cases hg : (ScalarType.isNumber t && decide (1 ≤ sh.length)) with
      | true =>
          rw [if_pos hg] at h
          cases h
          simp only [TItem.leavesL, TItem.leaves, if_true, List.append_nil,
            List.mem_singleton] at hi
          rw [hi]
          simp [TItem.flagOf, TItem.tagOf, TItem.shapeOf, hg]
      | false =>
          rw [if_neg (by simp [hg])] at h
          cases h
          simp only [TItem.leavesL, TItem.leaves, if_true, List.append_nil,
            List.mem_singleton] at hi
          rw [hi]
          simp [TItem.flagOf, TItem.tagOf, TItem.shapeOf, hg]
/-- Every leaf the MAT tree build creates for a field list is flagged
compatible exactly when its displayed dtype is numeric and its displayed rank
is at least 1. -/
theorem matAddFieldsOf_leafFlag (bp : List String) (fs : MatFields)
    (l : List (TItem (List String))) (h : matAddFieldsOf bp fs = .ok l) :
    ∀ i ∈ TItem.leavesL l,
      i.flagOf = (ScalarType.isNumber i.tagOf && decide (1 ≤ i.shapeOf.length)) :=
  match fs with
  | .fnil => by
      rw [matAddFieldsOf] at h
      cases h
      intro i hi
      simp [TItem.leavesL] at hi
  | .fcons fn .cnil rest => by
      rw [matAddFieldsOf] at h
      cases h
  | .fcons fn (.ccons v (.ccons w cs)) rest => by
      rw [matAddFieldsOf] at h
      cases h
  | .fcons fn (.ccons v .cnil) rest => by
      intro i hi
      rw [matAddFieldsOf] at h
      cases h1 : matAddField fn v (bp ++ [fn]) with
      | error e => rw [h1] at h; cases h
      | ok is =>
          cases h2 : matAddFieldsOf bp rest with
          | error e => rw [h1, h2] at h; cases h
          | ok tl =>
              rw [h1, h2] at h
              cases h
              rcases leavesL_append_mem i is tl hi with hmem | hmem
              · exact matAddField_leafFlag fn v (bp ++ [fn]) is h1 i hmem
              · exact matAddFieldsOf_leafFlag bp rest tl h2 i hmem
end

/-- Every leaf created for a top-level MAT variable is flagged compatible
exactly when its displayed dtype is numeric and its displayed rank is at
least 1. -/
theorem matAddVariable_leafFlag (k : String) (v : MatVal)
    (l : List (TItem (List String))) (h : matAddVariable k v = .ok l) :
    ∀ i ∈ TItem.leavesL l,
      i.flagOf = (ScalarType.isNumber i.tagOf && decide (1 ≤ i.shapeOf.length)) := by
  match v with
  | .structA sh fs =>
      intro i hi
      cases hk : matAddFieldsOf [k] fs with
      | error e => rw [matAddVariable, hk] at h; cases h
      | ok kids =>
          rw [matAddVariable, hk] at h
          cases h
          simp only [TItem.leavesL, TItem.leaves, Bool.false_eq_true, if_false,
            List.nil_append, List.append_nil] at hi
          exact matAddFieldsOf_leafFlag [k] fs kids hk i hi
  | .arr sh t vs =>
      intro i hi
      rw [matAddVariable] at h
      cases hg : matIsNumericArray (.arr sh t vs) with
      | true =>
          rw [if_pos hg] at h
          cases h
          simp only [TItem.leavesL, TItem.leaves, if_true, List.append_nil,
            List.mem_singleton] at hi
          rw [hi]
          simp only [matIsNumericArray] at hg
          simp [TItem.flagOf, TItem.tagOf, TItem.shapeOf, hg]
      | false =>
          rw [if_neg (by simp [hg])] at h
          cases h
          simp [TItem.leavesL] at hi

/-- Every leaf of a MAT tree built over a key list is flagged compatible
exactly when its displayed dtype is numeric and its displayed rank is at
least 1. -/
theorem matBuildTreeKeys_leafFlag (d : MatDict) (ks : List String)
    (t : List (TItem (List String))) (h : matBuildTreeKeys d ks = .ok t) :
    ∀ i ∈ TItem.leavesL t,
      i.flagOf = (ScalarType.isNumber i.tagOf && decide (1 ≤ i.shapeOf.length)) := by
  induction ks generalizing t with
  | nil => rw [matBuildTreeKeys] at h; cases h; intro i hi; simp [TItem.leavesL] at hi
  | cons k ks ih =>
      rw [matBuildTreeKeys] at h
      cases hf : d.find? (fun e => e.1 == k) with
      | none => rw [hf] at h; exact ih t h
      | some kv =>
          obtain ⟨k0, v0⟩ := kv
          rw [hf] at h
          dsimp only at h
          cases h1 : matAddVariable k v0 with
          | error e => rw [h1] at h; cases h
          | ok is =>
              cases h2 : matBuildTreeKeys d ks with
              | error e => rw [h1, h2] at h; cases h
              | ok tl =>
                  rw [h1, h2] at h
                  cases h
                  intro i hi
                  rcases leavesL_append_mem i is tl hi with hmem | hmem
                  · exact matAddVariable_leafFlag k v0 is h1 i hmem
                  · exact ih tl h2 i hmem

/-- Every leaf of the MAT description tree is flagged compatible exactly when
its displayed dtype is numeric and its displayed rank is at least 1. -/
theorem matTree_leafFlag (d : MatDict) (t : List (TItem (List String)))
    (h : matBuildTree d = .ok t) :
    ∀ i ∈ TItem.leavesL t,
      i.flagOf = (ScalarType.isNumber i.tagOf && decide (1 ≤ i.shapeOf.length)) :=
  matBuildTreeKeys_leafFlag d (sortNames (d.map Prod.fst)) t h

/-- The keys of the MAT compatible-sequence are a subsequence of the dict
keys, in dict (definition) order. -/
theorem matFind_keys_sublist (d : MatDict)
    (l : List (String × List Nat × MatDTag)) (h : matFindCompatible d = .ok l) :
    List.Sublist (l.map Prod.fst) (d.map Prod.fst) := by
  induction d generalizing l with
  | nil => rw [matFindCompatible] at h; cases h; simp
  | cons e rest ih =>
      rw [matFindCompatible] at h
      cases h1 : matHasNumericData e.2 with
      | error er => rw [h1] at h; cases h
      | ok b =>
          cases h2 : matFindCompatible rest with
          | error er => rw [h1, h2] at h; cases h
          | ok tl =>
              rw [h1, h2] at h
              cases h
              cases b with
              | true => simpa using List.Sublist.cons₂ e.1 (ih tl h2)
              | false => simpa using List.Sublist.cons e.1 (ih tl h2)

/-- A top-level MAT tree entry keeps the variable's name (or the variable is
dropped entirely). -/
theorem matAddVariable_names (k : String) (v : MatVal)
    (is : List (TItem (List String))) (h : matAddVariable k v = .ok is) :
    topNames is = [] ∨ topNames is = [k] := by
  match v with
  | .structA sh fs =>
      cases hk : matAddFieldsOf [k] fs with
      | error e => rw [matAddVariable, hk] at h; cases h
      | ok kids =>
          rw [matAddVariable, hk] at h
          cases h
          exact Or.inr (by simp [topNames, TItem.nameOf])
  | .arr sh t vs =>
      rw [matAddVariable] at h
      cases hg : matIsNumericArray (.arr sh t vs) with
      | true =>
          rw [if_pos hg] at h
          cases h
          exact Or.inr (by simp [topNames, TItem.nameOf])
      | false =>
          rw [if_neg (by simp [hg])] at h
          cases h
          exact Or.inl (by simp [topNames])

/-- The top-level names of a MAT tree built over a key list are a subsequence
of that key list. -/
theorem matBuildTreeKeys_names_sublist (d : MatDict) (ks : List String)
    (t : List (TItem (List String))) (h : matBuildTreeKeys d ks = .ok t) :
    List.Sublist (topNames t) ks := by
  induction ks generalizing t with
  | nil => rw [matBuildTreeKeys] at h; cases h; simp [topNames]
  | cons k ks ih =>
      rw [matBuildTreeKeys] at h
      cases hf : d.find? (fun e => e.1 == k) with
      | none =>
          rw [hf] at h
          exact (ih t h).trans (List.sublist_cons_self k ks)
      | some kv =>
          obtain ⟨k0, v0⟩ := kv
          rw [hf] at h
          dsimp only at h
          cases h1 : matAddVariable k v0 with
          | error e => rw [h1] at h; cases h
          | ok is =>
              cases h2 : matBuildTreeKeys d ks with
              | error e => rw [h1, h2] at h; cases h
              | ok tl =>
                  rw [h1, h2] at h
                  cases h
                  have hn := matAddVariable_names k v0 is h1
                  have htl := ih tl h2
                  rcases hn with hn | hn
                  · have : topNames (is ++ tl) = topNames tl := by
                      simp [topNames] at hn ⊢
                      simp [hn]
                    rw [this]
                    exact htl.trans (List.sublist_cons_self k ks)
                  · have : topNames (is ++ tl) = k :: topNames tl := by
                      simp only [topNames, List.map_append]
                      rw [show is.map TItem.nameOf = [k] from hn]
                      rfl
                    rw [this]
                    exact List.Sublist.cons₂ k htl

/-- Membership is preserved by `insertSorted`. -/
theorem mem_insertSorted (k n : String) (l : List String) :
    n ∈ insertSorted k l ↔ n = k ∨ n ∈ l := by
  induction l with
  | nil => simp [insertSorted]
  | cons x xs ih =>
      rw [insertSorted]
      cases h : lexLe k.data x.data with
      | true =>
          rw [if_pos (by simp [h])]
          simp only [List.mem_cons]
      | false =>
          rw [if_neg (by simp [h])]
          simp only [List.mem_cons, ih]
          tauto

/-- Membership is preserved by `sortNames`. -/
theorem mem_sortNames (n : String) (l : List String) :
    n ∈ sortNames l ↔ n ∈ l := by
  induction l with
  | nil => simp [sortNames]
  | cons x xs ih => rw [sortNames, mem_insertSorted]; simp [ih]

/-- The NPZ compatible-sequence keys are a subsequence of the archive keys,
in insertion order. -/
theorem npzFind_keys_sublist (f : NpzFile) :
    List.Sublist ((npzFindCompatible f).map Prod.fst) (f.map NpzEntry.key) := by
  induction f with
  | nil => simp [npzFindCompatible]
  | cons e es ih =>
      rw [npzFindCompatible, List.filterMap_cons]
      by_cases h : 1 ≤ e.shape.length
      · simpa [if_pos h, npzFindCompatible] using List.Sublist.cons₂ e.key ih
      · simpa [if_neg h, npzFindCompatible] using List.Sublist.cons e.key ih

/-- The NPZ tree holds one leaf per compatible entry, each carrying its key
as path and flagged compatible. -/
theorem npzTree_flags (f : NpzFile) :
    leafPathFlags (npzBuildTree f)
      = (npzFindCompatible f).map (fun e => (some e.1, true)) := by
  unfold npzBuildTree leafPathFlags
  induction npzFindCompatible f with
  | nil => simp [TItem.leavesL]
  | cons e es ih =>
      simpa [TItem.leavesL, TItem.leaves, TItem.pathOf, TItem.flagOf] using ih

/-- Characterization of the NPZ compatible-sequence: an entry occurs exactly
when the archive holds an array of that key, shape and dtype with rank at
least 1 — the dtype itself is not constrained. -/
theorem npzFind_mem (f : NpzFile) (e : String × List Nat × ScalarType) :
    e ∈ npzFindCompatible f
      ↔ ∃ en ∈ f, en.key = e.1 ∧ en.shape = e.2.1 ∧ en.dtype = e.2.2
          ∧ 1 ≤ en.shape.length := by
  unfold npzFindCompatible
  rw [List.mem_filterMap]
  constructor
  · rintro ⟨en, hen, hcond⟩
    by_cases h : 1 ≤ en.shape.length
    · rw [if_pos h] at hcond
      cases hcond
      exact ⟨en, hen, rfl, rfl, rfl, h⟩
    · rw [if_neg h] at hcond
      cases hcond
  · rintro ⟨en, hen, hk, hs, hd, hr⟩
    refine ⟨en, hen, ?_⟩
    rw [if_pos hr, hk, hs, hd]

/-- The NPZ tree's compatible-leaf count equals the compatible-sequence
length (the tree is built from the sequence, one leaf per entry, all
flagged). -/
theorem npz_compatLeafCount (f : NpzFile) :
    compatLeafCount (npzBuildTree f) = (npzFindCompatible f).length := by
  unfold compatLeafCount
  rw [← List.countP_eq_length_filter]
  have hmap : (TItem.leavesL (npzBuildTree f)).countP TItem.flagOf
      = (leafPathFlags (npzBuildTree f)).countP (fun x => x.2) := by
    unfold leafPathFlags
    rw [List.countP_map]
    rfl
  rw [hmap, npzTree_flags, List.countP_map]
  simp

/-! ## Claim theorems -/

/-- C3: the claim says discovery never raises on a structurally valid
container.  The MAT walk, however, extracts every struct field with
`.item()`, which raises `ValueError` on a multi-element struct array — a
structurally valid MATLAB value (`scipy.io.loadmat` produces, e.g., a
`(1,2)`-shaped struct array for `s(1).x=…, s(2).x=…`).  This theorem
evaluates the embedded discovery at such a file: `_has_numeric_data` and
`_find_compatible_datasets` both raise instead of classifying the node
incompatible. -/
theorem c3_discovery_raises_on_multielement_struct :
    matHasNumericData (.structA [1, 2] (.fcons "x"
        (.ccons (.arr [3] (.num .float) [(1, 0), (2, 0), (3, 0)])
          (.ccons (.arr [3] (.num .float) [(4, 0), (5, 0), (6, 0)]) .cnil))
        .fnil))
      = .error "ValueError: can only convert an array of size 1 to a Python scalar"
    ∧ matFindCompatible [("s", .structA [1, 2] (.fcons "x"
        (.ccons (.arr [3] (.num .float) [(1, 0), (2, 0), (3, 0)])
          (.ccons (.arr [3] (.num .float) [(4, 0), (5, 0), (6, 0)]) .cnil))
        .fnil))]
      = .error "ValueError: can only convert an array of size 1 to a Python scalar" :=
  ⟨rfl, rfl⟩

/-- C4: the claim says every compatible path produced by discovery can be
materialized back to the same node.  `load_data` treats every 2-segment path
as `dataset/field`: for a plain dataset inside one group (path `g1/d1`,
produced by discovery), it looks up `g1` — a group — and accesses `.dtype`
on it, raising `AttributeError` instead of returning the array.  This
theorem evaluates the embedded discovery and load at such a file. -/
theorem c4_two_segment_path_load_fails :
    h5FindCompatible (.cons "g1"
        (.group (.cons "d1" (.plainDs [4, 4] (.num .float) []) .nil)) .nil)
      = [(["g1", "d1"], [4, 4])]
    ∧ h5LoadData (.cons "g1"
        (.group (.cons "d1" (.plainDs [4, 4] (.num .float) []) .nil)) .nil)
        ["g1", "d1"]
      = .error "AttributeError: a group has no dtype" :=
  ⟨rfl, rfl⟩

/-- C6: hierarchical-group materialization of a chosen dataset (addressed at
the container root, where the path machinery reaches the reconstruction
policy): a natively complex dataset is returned as-is; a compound dataset
with both a real-part candidate (first of `real, realdata, r` present) and an
imaginary-part candidate (first of `imag, imagdata, i` present) yields
`real + 1j*imag` element-wise; only a real candidate yields that field as a
plain array; no real candidate yields the raw compound data unmodified. -/
theorem c6_complex_reconstruction (ms : H5Members) (k : String) :
    (∀ sh vs, H5Members.get? ms k = some (.plainDs sh (.num .cfloat) vs) →
        h5LoadData ms [k] = .ok (.arr sh (.num .cfloat) vs))
    ∧ (∀ sh fields r i, H5Members.get? ms k = some (.compDs sh fields) →
        firstPresent ["real", "realdata", "r"] (fields.map CField.name) = some r →
        firstPresent ["imag", "imagdata", "i"] (fields.map CField.name) = some i →
        h5LoadData ms [k] = .ok (.arr (sh ++ (fieldTypeOf fields r).dataShape)
          (.num .cfloat)
          (List.zipWith cAddMulI (fieldCol fields r) (fieldCol fields i))))
    ∧ (∀ sh fields r, H5Members.get? ms k = some (.compDs sh fields) →
        firstPresent ["real", "realdata", "r"] (fields.map CField.name) = some r →
        firstPresent ["imag", "imagdata", "i"] (fields.map CField.name) = none →
        h5LoadData ms [k] = .ok (.arr (sh ++ (fieldTypeOf fields r).dataShape)
          (fieldTypeOf fields r).dataBase (fieldCol fields r)))
    ∧ (∀ sh fields, H5Members.get? ms k = some (.compDs sh fields) →
        firstPresent ["real", "realdata", "r"] (fields.map CField.name) = none →
        h5LoadData ms [k] = .ok (.raw sh fields)) := by
  have h0 : h5LoadData ms [k] = h5LoadRegular ms [k] := rfl
  have hres : h5Resolve ms [k] = (match ms.get? k with
      | some o => Except.ok o
      | none => Except.error "KeyError: name not found") := rfl
  refine ⟨?_, ?_, ?_, ?_⟩
  · intro sh vs hget
    rw [h0]
    unfold h5LoadRegular
    rw [hres, hget]
    dsimp only
    simp [ScalarType.isComplexT]
  · intro sh fields r i hget hr hi
    rw [h0]
    unfold h5LoadRegular
    rw [hres, hget]
    dsimp only
    rw [hr, hi]
  · intro sh fields r hget hr hi
    rw [h0]
    unfold h5LoadRegular
    rw [hres, hget]
    dsimp only
    rw [hr, hi]
  · intro sh fields hget hr
    rw [h0]
    unfold h5LoadRegular
    rw [hres, hget]
    dsimp only
    rw [hr]

/-- C6 witness: with fields `real = [1,2,3]` and `imag = [4,5,6]` the loaded
array is `[1+4i, 2+5i, 3+6i]`, per the claim's example. -/
theorem c6_complex_reconstruction_witness :
    h5LoadData (.cons "z" (.compDs [3]
        [⟨"real", .scalar (.num .float), [(1, 0), (2, 0), (3, 0)]⟩,
         ⟨"imag", .scalar (.num .float), [(4, 0), (5, 0), (6, 0)]⟩]) .nil) ["z"]
      = .ok (.arr ([3] ++ (fieldTypeOf
          [⟨"real", .scalar (.num .float), [(1, 0), (2, 0), (3, 0)]⟩,
           ⟨"imag", .scalar (.num .float), [(4, 0), (5, 0), (6, 0)]⟩] "real").dataShape)
          (.num .cfloat)
          (List.zipWith cAddMulI
            (fieldCol [⟨"real", .scalar (.num .float), [(1, 0), (2, 0), (3, 0)]⟩,
              ⟨"imag", .scalar (.num .float), [(4, 0), (5, 0), (6, 0)]⟩] "real")
            (fieldCol [⟨"real", .scalar (.num .float), [(1, 0), (2, 0), (3, 0)]⟩,
              ⟨"imag", .scalar (.num .float), [(4, 0), (5, 0), (6, 0)]⟩] "imag")))
    ∧ List.zipWith cAddMulI
        (fieldCol [⟨"real", .scalar (.num .float), [(1, 0), (2, 0), (3, 0)]⟩,
          ⟨"imag", .scalar (.num .float), [(4, 0), (5, 0), (6, 0)]⟩] "real")
        (fieldCol [⟨"real", .scalar (.num .float), [(1, 0), (2, 0), (3, 0)]⟩,
          ⟨"imag", .scalar (.num .float), [(4, 0), (5, 0), (6, 0)]⟩] "imag")
      = [(1, 4), (2, 5), (3, 6)] :=
  ⟨(c6_complex_reconstruction (.cons "z" (.compDs [3]
      [⟨"real", .scalar (.num .float), [(1, 0), (2, 0), (3, 0)]⟩,
       ⟨"imag", .scalar (.num .float), [(4, 0), (5, 0), (6, 0)]⟩]) .nil) "z").2.1
    [3] _ "real" "imag" rfl rfl rfl, by decide⟩

/-- C8: loading a struct-field path in the struct-matrix format descends the
hierarchy one segment at a time (first conjunct: the whole load is the
navigation loop followed by squeeze and atleast-1d), each step transparently
unwrapping a single-element struct array by scalar extraction (second
conjunct: descending into a struct with a single-cell field continues on
that field's sole value). -/
theorem c8_struct_field_loading :
    (∀ (d : MatDict) (s : String) (kv : String × MatVal) (rest : List String)
        (r : MatVal),
        d.find? (fun e => e.1 == s) = some kv →
        matNavigate kv.2 rest = .ok r →
        matLoadData d (s :: rest) = .ok (matAtleast1d (matSqueeze r)))
    ∧ (∀ (sh : List Nat) (fs : MatFields) (x : String) (rest : List String)
        (v : MatVal),
        MatFields.cellsOf fs x = some (.ccons v .cnil) →
        matNavigate (.structA sh fs) (x :: rest) = matNavigate v rest) := by
  constructor
  · intro d s kv rest r hfind hnav
    obtain ⟨k0, v0⟩ := kv
    rw [matLoadData, hfind]
    dsimp only
    rw [hnav]
  · intro sh fs x rest v hcells
    rw [matNavigate, hcells]

/-- C8 witness: a `(1,1)` struct variable `s` with numeric field `x` of shape
`(3,3)`; loading `s/x` returns the `(3,3)` array squeezed and at least 1-d. -/
theorem c8_struct_field_loading_witness :
    matLoadData [("s", .structA [1, 1] (.fcons "x"
        (.ccons (.arr [3, 3] (.num .float) (List.replicate 9 ((1 : Int), (0 : Int)))) .cnil)
        (.fcons "label" (.ccons (.arr [1] .nonNum []) .cnil) .fnil)))] ["s", "x"]
      = .ok (matAtleast1d (matSqueeze
          (.arr [3, 3] (.num .float) (List.replicate 9 ((1 : Int), (0 : Int)))))) :=
  c8_struct_field_loading.1
    [("s", .structA [1, 1] (.fcons "x"
        (.ccons (.arr [3, 3] (.num .float) (List.replicate 9 ((1 : Int), (0 : Int)))) .cnil)
        (.fcons "label" (.ccons (.arr [1] .nonNum []) .cnil) .fnil)))]
    "s" _ ["x"] _ rfl rfl

/-- C9: `MatDatasetSelector.__init__` filters out every variable whose name
starts with `__` before any discovery; consequently no such name appears
among the dict keys, in the compatible-sequence, among the tree's top-level
items, or as the auto-selected dataset. -/
theorem c9_metadata_vars_excluded :
    (∀ (raw : MatDict) (k : String),
        k ∈ (matMkDict raw).map Prod.fst → hasDunder k = false)
    ∧ (∀ (raw : MatDict) (l : List (String × List Nat × MatDTag)),
        matFindCompatible (matMkDict raw) = .ok l →
          ∀ e ∈ l, hasDunder e.1 = false)
    ∧ (∀ (raw : MatDict) (t : List (TItem (List String))),
        matBuildTree (matMkDict raw) = .ok t →
          ∀ n ∈ topNames t, hasDunder n = false)
    ∧ (∀ (raw : MatDict) (n : String) (v : MatVal),
        matGetSingleData (matMkDict raw) = some (n, v) →
          hasDunder n = false) := by
  have hkey : ∀ (raw : MatDict) (k : String),
      k ∈ (matMkDict raw).map Prod.fst → hasDunder k = false := by
    intro raw k hk
    obtain ⟨e, he, hek⟩ := List.mem_map.mp hk
    have := (List.mem_filter.mp he).2
    rw [← hek]
    simpa using this
  refine ⟨hkey, ?_, ?_, ?_⟩
  · intro raw l hfind e he
    apply hkey raw
    exact (matFind_keys_sublist (matMkDict raw) l hfind).subset
      (List.mem_map.mpr ⟨e, he, rfl⟩)
  · intro raw t htree n hn
    apply hkey raw
    have hsub := matBuildTreeKeys_names_sublist (matMkDict raw)
      (sortNames ((matMkDict raw).map Prod.fst)) t htree
    exact (mem_sortNames n _).mp (hsub.subset hn)
  · intro raw n v h
    apply hkey raw
    unfold matGetSingleData at h
    split at h
    · rename_i k0 v0 hd hfil hdict
      have h2 : (k0, matSqueeze v0) = (n, v) := by injection h
      have hnk : k0 = n := congrArg Prod.fst h2
      have hm : (k0, v0) ∈ (matMkDict raw).filter (fun e => matIsNumericArray e.2) := by
        rw [hfil]
        exact List.mem_singleton.mpr rfl
      rw [← hnk]
      exact List.mem_map.mpr ⟨(k0, v0), List.mem_of_mem_filter hm, rfl⟩
    · cases h

/-- C9 witness: a raw dict holding `__header__` and a numeric variable; the
filtered dict, compatible-sequence, tree and auto-selection all avoid the
metadata name. -/
theorem c9_metadata_vars_excluded_witness :
    matFindCompatible (matMkDict [("__header__", .arr [1] .nonNum []),
        ("a", .arr [3] (.num .float) [(1, 0), (2, 0), (3, 0)])])
      = .ok [("a", [3], .scalarT (.num .float))]
    ∧ (∀ e ∈ [(("a" : String), ([3] : List Nat), MatDTag.scalarT (.num .float))],
        hasDunder e.1 = false) :=
  ⟨rfl, c9_metadata_vars_excluded.2.1
    [("__header__", .arr [1] .nonNum []),
     ("a", .arr [3] (.num .float) [(1, 0), (2, 0), (3, 0)])] _ rfl⟩

/-- C10: in the hierarchical-group walk, compound-field entries are produced
only under the `obj.ndim >= 1` gate on the enclosing dataset: a rank-0
compound dataset contributes nothing (first conjunct), a rank-≥1 compound
dataset contributes exactly its numeric-array fields (second conjunct), and
a concrete file holding only a rank-0 compound dataset with a numeric
`[3]`-shaped field has an empty compatible-sequence (third conjunct). -/
theorem c10_rank0_compound_fields_excluded :
    (∀ (path : List String) (fields : List CField),
        h5DatasetEntries path (.compDs [] fields) = [])
    ∧ (∀ (path : List String) (sh : List Nat) (fields : List CField),
        1 ≤ sh.length →
          h5DatasetEntries path (.compDs sh fields)
            = fields.filterMap fun f =>
                let i := fieldInfo f.ftype
                if i.2.2 then some (path ++ [f.name], i.1) else none)
    ∧ h5FindCompatible (.cons "d"
        (.compDs [] [⟨"x", .subarray (.num .float) [3], []⟩]) .nil) = [] := by
  refine ⟨?_, ?_, rfl⟩
  · intro path fields
    simp [h5DatasetEntries]
  · intro path sh fields h
    simp [h5DatasetEntries, h]

/-- C10 witness: the same compound dataset with a numeric `[3]`-shaped field
does contribute that field once its rank is 1. -/
theorem c10_rank0_compound_fields_excluded_witness :
    1 ≤ ([2] : List Nat).length
    ∧ h5DatasetEntries ["d"] (.compDs [2] [⟨"x", .subarray (.num .float) [3], []⟩])
        = ([⟨"x", .subarray (.num .float) [3], []⟩] : List CField).filterMap fun f =>
            let i := fieldInfo f.ftype
            if i.2.2 then some (["d"] ++ [f.name], i.1) else none :=
  ⟨by decide, c10_rank0_compound_fields_excluded.2.1 ["d"] [2]
    [⟨"x", .subarray (.num .float) [3], []⟩] (by decide)⟩

/-- C1 counterexample: the claim's format-uniform rule fails three ways on
concrete containers.  (i) An `.npz` entry `a` that is a non-numeric array of
shape `[2]` enters the compatible-sequence and is flagged compatible in the
tree (the NPZ walk never inspects the dtype); (ii) the rank-0 `.npz` entry
`b` is absent from the tree rather than shown incompatible, and likewise a
non-numeric plain `.mat` variable `b` is dropped from the tree; (iii) an HDF5
numeric field `x` with sub-shape `[3]` under a rank-0 compound dataset is
flagged incompatible despite being numeric of rank ≥ 1. -/
theorem c1_counterexample :
    npzFindCompatible [⟨"a", [2], .nonNum, [(1, 0), (2, 0)]⟩,
        ⟨"b", [], .num .float, [(5, 0)]⟩]
      = [("a", [2], .nonNum)]
    ∧ leafPathFlags (npzBuildTree [⟨"a", [2], .nonNum, [(1, 0), (2, 0)]⟩,
        ⟨"b", [], .num .float, [(5, 0)]⟩])
      = [(some "a", true)]
    ∧ matBuildTree [("a", .arr [3] (.num .float) [(1, 0), (2, 0), (3, 0)]),
        ("b", .arr [2] .nonNum [])]
      = .ok [.mk "a" [3] (.num .float) (some ["a"]) true true []]
    ∧ leafPathFlags (h5BuildTree (.cons "d"
        (.compDs [] [⟨"x", .subarray (.num .float) [3], []⟩]) .nil))
      = [(some ["d", "x"], false)] :=
  ⟨rfl, rfl, rfl, rfl⟩

/-- C1 (amended): per format.  Hierarchical-group (well-formed file): every
tree leaf carries its candidate path and is flagged compatible exactly per
the code's predicate — a plain dataset iff numeric dtype and rank ≥ 1, a
compound field iff the enclosing dataset has rank ≥ 1 and the field has a
numeric sub-array dtype of rank ≥ 1 (`h5CandMembers` records precisely these
predicates).  Struct-matrix: every leaf shown in the tree is flagged
compatible iff its dtype is numeric and its rank ≥ 1 (but non-struct
non-numeric-array variables are omitted, not shown incompatible).
Flat-archive: an entry is compatible iff its rank ≥ 1 with the dtype never
inspected, and the tree holds exactly the compatible entries, all flagged —
rank-0 entries are omitted entirely. -/
theorem c1_amended_compatibility :
    (∀ ms : H5Members, H5Members.wf ms = true →
        leafPathFlags (h5BuildTree ms)
          = (h5CandMembers [] ms).map (fun c => (some c.1, c.2.2)))
    ∧ (∀ (d : MatDict) (t : List (TItem (List String))), matBuildTree d = .ok t →
        ∀ i ∈ TItem.leavesL t,
          i.flagOf = (ScalarType.isNumber i.tagOf && decide (1 ≤ i.shapeOf.length)))
    ∧ (∀ (f : NpzFile) (e : String × List Nat × ScalarType),
        e ∈ npzFindCompatible f ↔ ∃ en ∈ f, en.key = e.1 ∧ en.shape = e.2.1
          ∧ en.dtype = e.2.2 ∧ 1 ≤ en.shape.length)
    ∧ (∀ f : NpzFile, leafPathFlags (npzBuildTree f)
        = (npzFindCompatible f).map (fun e => (some e.1, true))) :=
  ⟨h5_leafFlags, matTree_leafFlag, npzFind_mem, npzTree_flags⟩

/-- C1 witness: the amended statement applied to concrete containers of each
format. -/
theorem c1_amended_compatibility_witness :
    (H5Members.wf (.cons "a" (.plainDs [2] (.num .float) [(1, 0), (2, 0)]) .nil) = true
      ∧ leafPathFlags (h5BuildTree (.cons "a" (.plainDs [2] (.num .float) [(1, 0), (2, 0)]) .nil))
          = (h5CandMembers [] (.cons "a" (.plainDs [2] (.num .float) [(1, 0), (2, 0)]) .nil)).map
              (fun c => (some c.1, c.2.2)))
    ∧ (matBuildTree [("s", .structA [1, 1] (.fcons "x"
          (.ccons (.arr [3] (.num .float) [(1, 0), (2, 0), (3, 0)]) .cnil) .fnil))]
        = .ok [.mk "s" [] .nonNum none false false
            [.mk "x" [3] (.num .float) (some ["s", "x"]) true true []]]
      ∧ ∀ i ∈ TItem.leavesL [TItem.mk "s" [] ScalarType.nonNum none false false
            [.mk "x" [3] (.num .float) (some ["s", "x"]) true true []]],
          i.flagOf = (ScalarType.isNumber i.tagOf && decide (1 ≤ i.shapeOf.length)))
    ∧ ((("a", [2], ScalarType.nonNum) ∈ npzFindCompatible [⟨"a", [2], .nonNum, []⟩]
        ↔ ∃ en ∈ [NpzEntry.mk "a" [2] .nonNum []], en.key = "a" ∧ en.shape = [2]
            ∧ en.dtype = .nonNum ∧ 1 ≤ en.shape.length)
      ∧ leafPathFlags (npzBuildTree [⟨"a", [2], .nonNum, []⟩])
          = (npzFindCompatible [⟨"a", [2], .nonNum, []⟩]).map (fun e => (some e.1, true))) :=
  ⟨⟨by decide, c1_amended_compatibility.1 _ (by decide)⟩,
   ⟨rfl, c1_amended_compatibility.2.1
      [("s", .structA [1, 1] (.fcons "x"
        (.ccons (.arr [3] (.num .float) [(1, 0), (2, 0), (3, 0)]) .cnil) .fnil))] _ rfl⟩,
   ⟨c1_amended_compatibility.2.2.1 _ _, c1_amended_compatibility.2.2.2 _⟩⟩

/-- C5 counterexample: two `.mat` struct variables, each with two numeric
fields.  The compatible-sequence has 2 entries (one per struct variable) and
resolution does return `NeedsChoice`, but the tree holds 4 compatible leaves
(one per numeric field), so the claimed count equality fails. -/
theorem c5_counterexample :
    matFindCompatible [("s", .structA [1, 1] (.fcons "x"
        (.ccons (.arr [3] (.num .float) []) .cnil)
        (.fcons "y" (.ccons (.arr [2] (.num .float) []) .cnil) .fnil))),
      ("t", .structA [1, 1] (.fcons "x"
        (.ccons (.arr [3] (.num .float) []) .cnil)
        (.fcons "y" (.ccons (.arr [2] (.num .float) []) .cnil) .fnil)))]
      = .ok [("s", [1, 1], .structT), ("t", [1, 1], .structT)]
    ∧ (matBuildTree [("s", .structA [1, 1] (.fcons "x"
        (.ccons (.arr [3] (.num .float) []) .cnil)
        (.fcons "y" (.ccons (.arr [2] (.num .float) []) .cnil) .fnil))),
      ("t", .structA [1, 1] (.fcons "x"
        (.ccons (.arr [3] (.num .float) []) .cnil)
        (.fcons "y" (.ccons (.arr [2] (.num .float) []) .cnil) .fnil)))]).map compatLeafCount
      = .ok 4
    ∧ (matView [("s", .structA [1, 1] (.fcons "x"
        (.ccons (.arr [3] (.num .float) []) .cnil)
        (.fcons "y" (.ccons (.arr [2] (.num .float) []) .cnil) .fnil))),
      ("t", .structA [1, 1] (.fcons "x"
        (.ccons (.arr [3] (.num .float) []) .cnil)
        (.fcons "y" (.ccons (.arr [2] (.num .float) []) .cnil) .fnil)))]).map
        (fun o => match o with
          | .needsChoice t => some (compatLeafCount t)
          | _ => none)
      = .ok (some 4) :=
  ⟨rfl, rfl, rfl⟩

/-- C5 (amended): with two or more compatible-sequence entries, resolution
returns `NeedsChoice` carrying the full discovery tree for every format (for
struct-matrix, provided tree construction's struct unwrapping succeeds), and
the tree's compatible-leaf count equals the sequence length for the
hierarchical-group (well-formed file) and flat-archive formats; for the
struct-matrix format the count can differ, as one sequence entry stands for
a whole top-level variable. -/
theorem c5_amended_needschoice_count :
    (∀ ms : H5Members, H5Members.wf ms = true →
        (h5FindCompatible ms).length > 1 →
          h5View ms = .ok (.needsChoice (h5BuildTree ms))
          ∧ compatLeafCount (h5BuildTree ms) = (h5FindCompatible ms).length)
    ∧ (∀ f : NpzFile, (npzFindCompatible f).length > 1 →
        npzView f = .needsChoice (npzBuildTree f)
        ∧ compatLeafCount (npzBuildTree f) = (npzFindCompatible f).length)
    ∧ (∀ (d : MatDict) (l : List (String × List Nat × MatDTag))
        (t : List (TItem (List String))),
        matFindCompatible d = .ok l → l.length > 1 → matBuildTree d = .ok t →
          matView d = .ok (.needsChoice t)) := by
  refine ⟨?_, ?_, ?_⟩
  · intro ms hwf hlen
    refine ⟨?_, h5_compatLeafCount ms hwf⟩
    unfold h5View
    rw [if_pos hlen]
  · intro f hlen
    refine ⟨?_, npz_compatLeafCount f⟩
    unfold npzView
    rw [if_pos hlen]
  · intro d l t hfind hlen htree
    unfold matView
    rw [hfind]
    dsimp only
    rw [if_pos hlen, htree]

/-- C5 witness: the amended statement applied to concrete two-candidate
containers of each format. -/
theorem c5_amended_needschoice_count_witness :
    (H5Members.wf (.cons "a" (.plainDs [2] (.num .float) [])
        (.cons "b" (.plainDs [3] (.num .float) []) .nil)) = true
      ∧ (h5FindCompatible (.cons "a" (.plainDs [2] (.num .float) [])
          (.cons "b" (.plainDs [3] (.num .float) []) .nil))).length > 1
      ∧ (h5View (.cons "a" (.plainDs [2] (.num .float) [])
            (.cons "b" (.plainDs [3] (.num .float) []) .nil))
          = .ok (.needsChoice (h5BuildTree (.cons "a" (.plainDs [2] (.num .float) [])
              (.cons "b" (.plainDs [3] (.num .float) []) .nil))))
        ∧ compatLeafCount (h5BuildTree (.cons "a" (.plainDs [2] (.num .float) [])
            (.cons "b" (.plainDs [3] (.num .float) []) .nil)))
          = (h5FindCompatible (.cons "a" (.plainDs [2] (.num .float) [])
              (.cons "b" (.plainDs [3] (.num .float) []) .nil))).length))
    ∧ ((npzFindCompatible [⟨"a", [2], .num .float, []⟩, ⟨"b", [3], .num .float, []⟩]).length > 1
      ∧ (npzView [⟨"a", [2], .num .float, []⟩, ⟨"b", [3], .num .float, []⟩]
          = .needsChoice (npzBuildTree [⟨"a", [2], .num .float, []⟩, ⟨"b", [3], .num .float, []⟩])
        ∧ compatLeafCount (npzBuildTree [⟨"a", [2], .num .float, []⟩, ⟨"b", [3], .num .float, []⟩])
          = (npzFindCompatible [⟨"a", [2], .num .float, []⟩, ⟨"b", [3], .num .float, []⟩]).length))
    ∧ matView [("s", .structA [1, 1] (.fcons "x"
          (.ccons (.arr [3] (.num .float) []) .cnil) .fnil)),
        ("u", .structA [1, 1] (.fcons "x"
          (.ccons (.arr [3] (.num .float) []) .cnil) .fnil))]
      = .ok (.needsChoice [.mk "s" [] .nonNum none false false
            [.mk "x" [3] (.num .float) (some ["s", "x"]) true true []],
          .mk "u" [] .nonNum none false false
            [.mk "x" [3] (.num .float) (some ["u", "x"]) true true []]]) :=
  ⟨⟨by decide, by decide,
    c5_amended_needschoice_count.1 _ (by decide) (by decide)⟩,
   ⟨by decide, c5_amended_needschoice_count.2.1 _ (by decide)⟩,
   c5_amended_needschoice_count.2.2 _
     [("s", [1, 1], .structT), ("u", [1, 1], .structT)] _ rfl (by decide) rfl⟩

/-- C2 counterexample: two concrete files whose compatible-sequence has
exactly one entry but whose resolution does not return `Resolved`.  A `.mat`
file with numeric variable `a` and a second (string) variable `b` has the
single-entry sequence `[a]`, yet `get_single_data` demands the dict itself be
a singleton, so resolution yields the no-data outcome.  An HDF5 file whose
single compatible dataset sits at depth two (`g/d`) makes `get_single_data`
call `load_data('g/d')`, which raises `AttributeError` instead of resolving. -/
theorem c2_counterexample :
    (matFindCompatible [("a", .arr [3] (.num .float) [(1, 0), (2, 0), (3, 0)]),
        ("b", .arr [2] .nonNum [])]).map List.length = .ok 1
    ∧ matView [("a", .arr [3] (.num .float) [(1, 0), (2, 0), (3, 0)]),
        ("b", .arr [2] .nonNum [])] = .ok .empty
    ∧ h5FindCompatible (.cons "g"
        (.group (.cons "d" (.plainDs [4] (.num .float) []) .nil)) .nil)
      = [(["g", "d"], [4])]
    ∧ h5View (.cons "g"
        (.group (.cons "d" (.plainDs [4] (.num .float) []) .nil)) .nil)
      = .error "AttributeError: a group has no dtype" :=
  ⟨rfl, rfl, rfl, rfl⟩

/-- C2 (amended): with exactly one compatible-sequence entry, resolution
materializes immediately for the flat-archive format; for the
hierarchical-group format it resolves with the entry's path and array exactly
when loading that path succeeds and surfaces the load's exception otherwise —
in particular a 2-segment path whose head segment names a group (a plain
dataset one group deep) raises `AttributeError`, while a 2-segment path
naming a field of a root-level compound dataset loads successfully (fourth
and fifth conjuncts); for the struct-matrix format it resolves — with the
squeezed array — exactly in the case of a dict holding a single variable
that is a plain numeric array, and yields the Empty outcome in every other
single-entry situation. -/
theorem c2_amended_single_resolution :
    (∀ (f : NpzFile) (n : String) (sh : List Nat) (t : ScalarType),
        npzFindCompatible f = [(n, sh, t)] →
          ∃ a, npzLoadData f n = some a ∧ npzView f = .resolved n a)
    ∧ (∀ (ms : H5Members) (p : List String) (sh : List Nat) (d : Loaded),
        h5FindCompatible ms = [(p, sh)] → h5LoadData ms p = .ok d →
          h5View ms = .ok (.resolved p d))
    ∧ (∀ (ms : H5Members) (p : List String) (sh : List Nat) (e : String),
        h5FindCompatible ms = [(p, sh)] → h5LoadData ms p = .error e →
          h5View ms = .error e)
    ∧ (∀ (ms : H5Members) (g d2 : String) (cs : H5Members),
        H5Members.get? ms g = some (.group cs) →
          h5LoadData ms [g, d2] = .error "AttributeError: a group has no dtype")
    ∧ (∀ (ms : H5Members) (c x : String) (sh : List Nat) (fields : List CField),
        H5Members.get? ms c = some (.compDs sh fields) →
        (fields.map CField.name).contains x = true →
          h5LoadData ms [c, x]
            = if sh = [1] then
                .ok (.arr (fieldTypeOf fields x).dataShape
                  (fieldTypeOf fields x).dataBase (fieldCol fields x))
              else
                .ok (.arr (sh ++ (fieldTypeOf fields x).dataShape)
                  (fieldTypeOf fields x).dataBase (fieldCol fields x)))
    ∧ (∀ (k : String) (v : MatVal), matIsNumericArray v = true →
        matView [(k, v)] = .ok (.resolved k (matSqueeze v)))
    ∧ (∀ (d : MatDict) (l : List (String × List Nat × MatDTag)),
        matFindCompatible d = .ok l → l.length ≤ 1 → matGetSingleData d = none →
          matView d = .ok .empty) := by
  refine ⟨?_, ?_, ?_, ?_, ?_, ?_, ?_⟩
  · intro f n sh t hfind
    have hmem : (n, sh, t) ∈ npzFindCompatible f := by
      rw [hfind]
      exact List.mem_singleton.mpr rfl
    obtain ⟨en, henf, hk, hs, hd, hr⟩ := (npzFind_mem f (n, sh, t)).mp hmem
    obtain ⟨a0, ha0⟩ : ∃ a, npzLoadData f n = some a := by
      unfold npzLoadData
      cases hfq : List.find? (fun e => e.key == n) f with
      | none =>
          have := List.find?_eq_none.mp hfq en henf
          simp [hk] at this
      | some e0 => exact ⟨_, rfl⟩
    refine ⟨a0, ha0, ?_⟩
    unfold npzView
    rw [if_neg (by rw [hfind]; simp)]
    unfold npzGetSingleData
    rw [hfind]
    dsimp only
    rw [ha0]
    rfl
  · intro ms p sh d hfind hload
    unfold h5View
    rw [if_neg (by rw [hfind]; simp)]
    unfold h5GetSingleData
    rw [hfind]
    dsimp only
    rw [hload]
  · intro ms p sh e hfind hload
    unfold h5View
    rw [if_neg (by rw [hfind]; simp)]
    unfold h5GetSingleData
    rw [hfind]
    dsimp only
    rw [hload]
  · intro ms g d2 cs hget
    simp only [h5LoadData, hget]
  · intro ms c x sh fields hget hcont
    simp only [h5LoadData, hget]
    rw [if_pos hcont]
  · intro k v hv
    cases v with
    | structA sh fs => simp [matIsNumericArray] at hv
    | arr sh t vs =>
        have hv2 : (ScalarType.isNumber t && decide (1 ≤ sh.length)) = true := by
          simpa [matIsNumericArray] using hv
        have hnum : matHasNumericData (.arr sh t vs) = .ok true := by
          rw [matHasNumericData, hv2]
        unfold matView
        rw [show matFindCompatible [(k, MatVal.arr sh t vs)]
            = .ok [(k, (MatVal.arr sh t vs).shapeOf, (MatVal.arr sh t vs).dtypeTag)] by
          rw [matFindCompatible, hnum, matFindCompatible]
          rfl]
        dsimp only
        rw [if_neg (by simp)]
        unfold matGetSingleData
        rw [show List.filter (fun e => matIsNumericArray e.2) [(k, MatVal.arr sh t vs)]
            = [(k, MatVal.arr sh t vs)] by
          rw [List.filter_cons]
          simp [hv]]
  · intro d l hfind hlen hsingle
    unfold matView
    rw [hfind]
    dsimp only
    rw [if_neg (by omega), hsingle]

/-- C2 witness: the amended statement applied to concrete single-candidate
containers of each format, including a root-level compound dataset `c`
(shape `[5]`, numeric subarray field `x`) whose 2-segment path `c/x` loads
and auto-resolves, and a plain dataset one group deep whose 2-segment path
`g/d2` raises. -/
theorem c2_amended_single_resolution_witness :
    (npzFindCompatible [⟨"a", [2], .num .float, [(7, 0), (8, 0)]⟩]
        = [("a", [2], .num .float)]
      ∧ ∃ a, npzLoadData [⟨"a", [2], .num .float, [(7, 0), (8, 0)]⟩] "a" = some a
          ∧ npzView [⟨"a", [2], .num .float, [(7, 0), (8, 0)]⟩] = .resolved "a" a)
    ∧ h5View (.cons "d" (.plainDs [4] (.num .float) []) .nil)
        = .ok (.resolved ["d"] (.arr [4] (.num .float) []))
    ∧ h5View (.cons "g" (.group (.cons "d2" (.plainDs [4] (.num .float) []) .nil)) .nil)
        = .error "AttributeError: a group has no dtype"
    ∧ h5LoadData (.cons "g" (.group (.cons "d2" (.plainDs [4] (.num .float) []) .nil)) .nil)
        ["g", "d2"] = .error "AttributeError: a group has no dtype"
    ∧ h5FindCompatible (.cons "c"
        (.compDs [5] [⟨"x", .subarray (.num .float) [3], [(9, 0)]⟩]) .nil)
        = [(["c", "x"], [3])]
    ∧ h5LoadData (.cons "c"
        (.compDs [5] [⟨"x", .subarray (.num .float) [3], [(9, 0)]⟩]) .nil) ["c", "x"]
        = .ok (.arr ([5] ++ [3]) (.num .float) [(9, 0)])
    ∧ h5View (.cons "c"
        (.compDs [5] [⟨"x", .subarray (.num .float) [3], [(9, 0)]⟩]) .nil)
        = .ok (.resolved ["c", "x"] (.arr ([5] ++ [3]) (.num .float) [(9, 0)]))
    ∧ matView [("a", .arr [1, 3] (.num .float) [(1, 0), (2, 0), (3, 0)])]
        = .ok (.resolved "a" (matSqueeze (.arr [1, 3] (.num .float) [(1, 0), (2, 0), (3, 0)])))
    ∧ matView [("a", .arr [3] (.num .float) [(1, 0), (2, 0), (3, 0)]),
        ("c", .arr [2] .nonNum [])] = .ok .empty :=
  ⟨⟨rfl, c2_amended_single_resolution.1 _ "a" [2] (.num .float) rfl⟩,
   c2_amended_single_resolution.2.1 _ ["d"] [4] _ rfl rfl,
   c2_amended_single_resolution.2.2.1 _ ["g", "d2"] [4] _ rfl rfl,
   c2_amended_single_resolution.2.2.2.1
     (.cons "g" (.group (.cons "d2" (.plainDs [4] (.num .float) []) .nil)) .nil)
     "g" "d2" _ rfl,
   rfl,
   (c2_amended_single_resolution.2.2.2.2.1
     (.cons "c" (.compDs [5] [⟨"x", .subarray (.num .float) [3], [(9, 0)]⟩]) .nil)
     "c" "x" [5] [⟨"x", .subarray (.num .float) [3], [(9, 0)]⟩] rfl rfl).trans (by rfl),
   c2_amended_single_resolution.2.1 _ ["c", "x"] [3] _ rfl rfl,
   c2_amended_single_resolution.2.2.2.2.2.1 "a" _ (by decide),
   c2_amended_single_resolution.2.2.2.2.2.2
     [("a", .arr [3] (.num .float) [(1, 0), (2, 0), (3, 0)]), ("c", .arr [2] .nonNum [])]
     [("a", [3], .scalarT (.num .float))] rfl (by decide) rfl⟩

/-- C7: the embedded discovery is a pure function of the container content,
so repeated discovery of the same unmodified file yields equal trees and
equal compatible-sequences for every format (first three conjuncts); the
flat-archive sequence follows insertion order and the struct-matrix sequence
follows definition order (subsequences of the respective key lists), the
struct-matrix tree iterates names lexicographically (a subsequence of the
sorted keys), and the flat-archive tree lists exactly the sequence's keys in
order. -/
theorem c7_idempotent_ordered :
    (∀ f g : NpzFile, f = g →
        npzFindCompatible f = npzFindCompatible g ∧ npzBuildTree f = npzBuildTree g)
    ∧ (∀ m1 m2 : H5Members, m1 = m2 →
        h5FindCompatible m1 = h5FindCompatible m2 ∧ h5BuildTree m1 = h5BuildTree m2)
    ∧ (∀ d1 d2 : MatDict, d1 = d2 →
        matFindCompatible d1 = matFindCompatible d2 ∧ matBuildTree d1 = matBuildTree d2)
    ∧ (∀ f : NpzFile,
        List.Sublist ((npzFindCompatible f).map Prod.fst) (f.map NpzEntry.key))
    ∧ (∀ (d : MatDict) (l : List (String × List Nat × MatDTag)),
        matFindCompatible d = .ok l →
          List.Sublist (l.map Prod.fst) (d.map Prod.fst))
    ∧ (∀ (d : MatDict) (t : List (TItem (List String))), matBuildTree d = .ok t →
        List.Sublist (topNames t) (sortNames (d.map Prod.fst)))
    ∧ (∀ f : NpzFile, topNames (npzBuildTree f) = (npzFindCompatible f).map Prod.fst) := by
  refine ⟨?_, ?_, ?_, npzFind_keys_sublist, matFind_keys_sublist, ?_, ?_⟩
  · intro f g h
    subst h
    exact ⟨rfl, rfl⟩
  · intro m1 m2 h
    subst h
    exact ⟨rfl, rfl⟩
  · intro d1 d2 h
    subst h
    exact ⟨rfl, rfl⟩
  · intro d t h
    exact matBuildTreeKeys_names_sublist d _ t h
  · intro f
    unfold topNames npzBuildTree
    rw [List.map_map]
    rfl

/-- C7 witness: the statement applied to concrete containers. -/
theorem c7_idempotent_ordered_witness :
    (npzFindCompatible [⟨"a", [2], .num .float, []⟩]
        = npzFindCompatible [⟨"a", [2], .num .float, []⟩]
      ∧ npzBuildTree [⟨"a", [2], .num .float, []⟩]
        = npzBuildTree [⟨"a", [2], .num .float, []⟩])
    ∧ (h5FindCompatible (.cons "a" (.plainDs [2] (.num .float) []) .nil)
        = h5FindCompatible (.cons "a" (.plainDs [2] (.num .float) []) .nil)
      ∧ h5BuildTree (.cons "a" (.plainDs [2] (.num .float) []) .nil)
        = h5BuildTree (.cons "a" (.plainDs [2] (.num .float) []) .nil))
    ∧ (matFindCompatible [("a", .arr [2] (.num .float) [])]
        = matFindCompatible [("a", .arr [2] (.num .float) [])]
      ∧ matBuildTree [("a", .arr [2] (.num .float) [])]
        = matBuildTree [("a", .arr [2] (.num .float) [])])
    ∧ List.Sublist ([(("a" : String), ([2] : List Nat), MatDTag.scalarT (.num .float))].map Prod.fst)
        ([(("a" : String), MatVal.arr [2] (.num .float) [])].map Prod.fst)
    ∧ List.Sublist (topNames [TItem.mk "a" [2] (ScalarType.num .float) (some ["a"]) true true []])
        (sortNames ([(("a" : String), MatVal.arr [2] (.num .float) [])].map Prod.fst)) :=
  ⟨c7_idempotent_ordered.1 _ _ rfl,
   c7_idempotent_ordered.2.1 _ _ rfl,
   c7_idempotent_ordered.2.2.1 _ _ rfl,
   c7_idempotent_ordered.2.2.2.2.1 [("a", .arr [2] (.num .float) [])] _ rfl,
   c7_idempotent_ordered.2.2.2.2.2.1 [("a", .arr [2] (.num .float) [])] _ rfl⟩

end Ndslice
